import Mathlib

/-!
Direct Connect connection source: the output mapper and the source built around it.

A shallow embedding of `src/connection.go` (package `directconnect`).

* Go values of pointer type are `Option`s: `nil` is `none`.
* A Go function returning `(value, error)` that may also crash on a nil
  pointer dereference has three outcomes, see `Outcome`.
* The collaborators the file imports from other packages
  (`sources.ToAttributesCase`, `sources.ParseARN`, `sources.FormatScope`,
  `tagsToMap`) are not part of `src/`; the mapper takes them as a record of
  functions, `Deps`, and every general theorem holds for all of them.
  `specDeps` is one concrete choice, written from the specification, used to
  evaluate the mapper on concrete records.
* Line 34 of the source (a bare `ConnectionFleetId` inside the `sdp.Query`
  literal) names no field and assigns nothing; it has no counterpart here.
* The two fetch paths of the source, `DescribeFunc` and `PaginatorBuilder`,
  return the list of steps they take (`Event`) next to their result.
-/

set_option linter.dupNamespace false

namespace DirectConnect

/-! ## Data model -/

/-- One provider tag (`types.Tag`). -/
structure Tag where
  Key : String
  Value : String
deriving DecidableEq, Repr

/-- The provider record `cr` ranged over by the mapper. The declaration lives
in the provider SDK; the fields are the ones `connection.go` reads, each of
pointer type there (it is compared with `nil` or dereferenced), together with
`ConnectionId`, the field the unique attribute `connectionId` projects. -/
structure Connection where
  ConnectionId : Option String := none
  awsDeviceV2 : Option String := none
  ConnectionFleetId : Option String := none
  awsLogicalDeviceId : Option String := none
  OutpostArn : Option String := none
  LagId : Option String := none
  PlacementGroupArn : Option String := none
  VLAN : Option Int := none
  Tags : List Tag := []
deriving DecidableEq, Repr

/-- The provider response `directconnect.DescribeConnectionsOutput`. -/
structure DescribeConnectionsOutput where
  Connections : List Connection
deriving DecidableEq, Repr

/-- The provider request `directconnect.DescribeConnectionsInput`. -/
structure DescribeConnectionsInput where
  ConnectionIds : List String := []
deriving DecidableEq, Repr

/-- A value of an item attribute. -/
inductive AttrValue where
  | null
  | str (s : String)
  | int (n : Int)
  | pairs (kvs : List (String × String))
deriving DecidableEq, Repr

/-- The attributes of an item (`sdp.ItemAttributes`): names with values. -/
abbrev Attributes := List (String × AttrValue)

/-- The result of `sources.ParseARN`: the parts of a structured identifier. -/
structure ARN where
  Partition : String
  Service : String
  Region : String
  AccountID : String
  Resource : String
deriving DecidableEq, Repr

/-- The query methods of `sdp.QueryMethod`. -/
inductive QueryMethod where
  | GET
  | LIST
  | SEARCH
deriving DecidableEq, Repr

/-- The `sdp.Query` of a link. `Type_` is the Go field `Type`. -/
structure Query where
  Type_ : String
  Method : QueryMethod
  Query : String
  Scope : String
deriving DecidableEq, Repr

/-- The `sdp.BlastPropagation` flags of a link. -/
structure BlastPropagation where
  In : Bool
  Out : Bool
deriving DecidableEq, Repr

/-- One `sdp.LinkedItemQuery`. -/
structure LinkedItemQuery where
  Query : Query
  BlastPropagation : BlastPropagation
deriving DecidableEq, Repr

/-- One `sdp.Item`. `Type_` is the Go field `Type`. -/
structure Item where
  Type_ : String
  UniqueAttribute : String
  Attributes : Attributes
  Scope : String
  Tags : List (String × String)
  LinkedItemQueries : List LinkedItemQuery := []
deriving DecidableEq, Repr

/-- How a call of a Go function `f(...) (T, error)` ends: it returns a value
and a nil error, it returns an error (and no value), or it crashes on the
dereference of a nil pointer. -/
inductive Outcome (α : Type) where
  | ok (val : α)
  | error (err : String)
  | nilDeref
deriving DecidableEq, Repr

/-- Sequencing of outcomes: the first error or crash ends the computation. -/
def Outcome.bind {α β : Type} (x : Outcome α) (f : α → Outcome β) : Outcome β :=
  match x with
  | .ok a => f a
  | .error e => .error e
  | .nilDeref => .nilDeref

/-- The Go expression `*p`. -/
def deref {α : Type} (p : Option α) : Outcome α :=
  match p with
  | some a => .ok a
  | none => .nilDeref

/-- The functions `connection.go` calls and does not define. -/
structure Deps where
  /-- The call `sources.ToAttributesCase(cr, exclusions...)`. -/
  ToAttributesCase : Connection → List String → Except String Attributes
  /-- The call `sources.ParseARN(s)`. -/
  ParseARN : String → Except String ARN
  /-- The call `sources.FormatScope(accountID, region)`. -/
  FormatScope : String → String → String
  /-- The call `tagsToMap(tags)`. -/
  tagsToMap : List Tag → List (String × String)

/-! ## The mapper -/

/-- Lines 30-47: the link to the device. The field tested is `awsDeviceV2`,
the field dereferenced for `Query` is `ConnectionFleetId`. -/
def deviceLink (scope : String) (cr : Connection) (links : List LinkedItemQuery) :
    Outcome (List LinkedItemQuery) :=
  if cr.awsDeviceV2.isSome then
    (deref cr.ConnectionFleetId).bind fun q =>
      .ok (links ++ [{
        Query := {
          Type_ := "directconnect-aws-Device-V2"
          Method := QueryMethod.GET
          Query := q
          Scope := scope }
        BlastPropagation := { In := true, Out := false } }])
  else .ok links

/-- The body shared by the three branches of lines 49-107:
`if arn, err := sources.ParseARN(*p); err == nil { append(...) }`,
where the link's `Query` is `*p` again. -/
def arnLink (d : Deps) (type_ : String) (p : Option String) (links : List LinkedItemQuery) :
    Outcome (List LinkedItemQuery) :=
  (deref p).bind fun s =>
    match d.ParseARN s with
    | .ok arn =>
      .ok (links ++ [{
        Query := {
          Type_ := type_
          Method := QueryMethod.SEARCH
          Query := s
          Scope := d.FormatScope arn.AccountID arn.Region }
        BlastPropagation := { In := true, Out := false } }])
    | .error _ => .ok links

/-- Lines 49-67: tested `awsLogicalDeviceId`, parsed `OutpostArn`. -/
def logicalDeviceLink (d : Deps) (cr : Connection) (links : List LinkedItemQuery) :
    Outcome (List LinkedItemQuery) :=
  if cr.awsLogicalDeviceId.isSome then
    arnLink d "directconnect-aws-logical-device" cr.OutpostArn links
  else .ok links

/-- Lines 69-87: tested `LagId`, parsed `PlacementGroupArn`. -/
def lagLink (d : Deps) (cr : Connection) (links : List LinkedItemQuery) :
    Outcome (List LinkedItemQuery) :=
  if cr.LagId.isSome then
    arnLink d "directconnect-lag" cr.PlacementGroupArn links
  else .ok links

/-- Lines 89-107: tested `VLAN`, parsed `PlacementGroupArn`. -/
def vlanLink (d : Deps) (cr : Connection) (links : List LinkedItemQuery) :
    Outcome (List LinkedItemQuery) :=
  if cr.VLAN.isSome then
    arnLink d "directconnect-vlan" cr.PlacementGroupArn links
  else .ok links

/-- Lines 30-107: the four branches in source order, starting from the empty
`LinkedItemQueries` of the fresh item. -/
def buildLinks (d : Deps) (scope : String) (cr : Connection) : Outcome (List LinkedItemQuery) :=
  (((deviceLink scope cr []).bind (logicalDeviceLink d cr)).bind (lagLink d cr)).bind
    (vlanLink d cr)

/-- Lines 16-109: the body of the loop for one record `cr`. -/
def mapConnection (d : Deps) (scope : String) (cr : Connection) : Outcome Item :=
  match d.ToAttributesCase cr ["tags"] with
  | .error err => .error err
  | .ok attributes =>
    (buildLinks d scope cr).bind fun links =>
      .ok {
        Type_ := "directconnect-connection"
        UniqueAttribute := "connectionId"
        Attributes := attributes
        Scope := scope
        Tags := d.tagsToMap cr.Tags
        LinkedItemQueries := links }

/-- The loop of lines 15-110, with the accumulator `items`. -/
def mapLoop (d : Deps) (scope : String) : List Connection → List Item → Outcome (List Item)
  | [], items => .ok items
  | cr :: rest, items =>
    match mapConnection d scope cr with
    | .ok item => mapLoop d scope rest (items ++ [item])
    | .error err => .error err
    | .nilDeref => .nilDeref

/-- The function `connectionOutputMapper` (lines 12-113); the context, the
client and the request are not read. -/
def connectionOutputMapper (d : Deps) (scope : String) (output : DescribeConnectionsOutput) :
    Outcome (List Item) :=
  mapLoop d scope output.Connections []

/-! ## The source -/

/-- The fields of `sources.DescribeOnlySource` that `NewConnectionSource`
sets and that carry no client, configuration or rate limiter. The source
documents three query methods, get, list and search (lines 118-120), and its
literal names the request builder of a method `InputMapper` followed by the
method: `InputMapperGet`, `InputMapperList`. The type is declared outside
`src/`; here every method has one slot for its request builder, and a builder
the literal does not set is `none` (a nil function value). -/
structure DescribeOnlySource where
  ItemType : String
  InputMapperGet : Option (String → String → Except String DescribeConnectionsInput)
  InputMapperList : Option (String → Except String DescribeConnectionsInput)
  InputMapperSearch : Option (String → String → Except String DescribeConnectionsInput)
  OutputMapper : String → DescribeConnectionsOutput → Outcome (List Item)

/-- The function `NewConnectionSource` (lines 124-147). -/
def NewConnectionSource (d : Deps) : DescribeOnlySource where
  ItemType := "directconnect-connection"
  InputMapperGet := some fun _scope query => .ok { ConnectionIds := [query] }
  InputMapperList := some fun _scope => .ok {}
  InputMapperSearch := none
  OutputMapper := connectionOutputMapper d

/-- The names of the fields the struct literal of `NewConnectionSource` sets
(lines 126-145), in source order. -/
def NewConnectionSource.literalFields : List String :=
  ["Config", "Client", "AccountID", "ItemType", "DescribeFunc", "InputMapperGet",
    "InputMapperList", "PaginatorBuilder", "OutputMapper"]

/-- The request builders among field names: the names that start with
`InputMapper`. -/
def inputMapperFields (fields : List String) : List String :=
  fields.filter fun f => "InputMapper".data.isPrefixOf f.data

/-! ## The collaborators, as the specification describes them -/

/-- Splits `cs` at the first `n` colons: at most `n + 1` sections, the last
one holding the unsplit remainder. `acc` is the current section, reversed. -/
def splitSections : Nat → List Char → List Char → List (List Char)
  | _, acc, [] => [acc.reverse]
  | 0, acc, c :: cs => [acc.reverse ++ c :: cs]
  | n + 1, acc, c :: cs =>
    if c = ':' then acc.reverse :: splitSections n [] cs
    else splitSections (n + 1) (c :: acc) cs

/-- Modelled from the spec: the Identifier Parser `sources.ParseARN`, which is
not under `src/`. A structured identifier is
`arn:partition:service:region:account:resource`; the region and the account
may be empty; a wrong number of sections or another first section is a
`ParseError`. -/
def specParseARN (s : String) : Except String ARN :=
  match splitSections 5 [] s.data with
  | [pre, partition, service, region, account, resource] =>
    if pre = ['a', 'r', 'n'] then
      .ok {
        Partition := String.mk partition
        Service := String.mk service
        Region := String.mk region
        AccountID := String.mk account
        Resource := String.mk resource }
    else .error "ParseError: unrecognized prefix"
  | _ => .error "ParseError: malformed segment count"

/-- Modelled from the spec: the Scope Resolver `sources.FormatScope`, which is
not under `src/`: the scope is `accountID + "." + region`. -/
def specFormatScope (accountID region : String) : String :=
  accountID ++ "." ++ region

/-- Modelled from the spec: the helper `tagsToMap`, which is not under `src/`:
the provider's tags flattened to a mapping from tag key to tag value. -/
def specTagsToMap (tags : List Tag) : List (String × String) :=
  tags.map fun t => (t.Key, t.Value)

/-- The naming normalisation of the projection: first letter lower-cased. -/
def lowerFirst (name : String) : String :=
  match name.data with
  | [] => ""
  | c :: cs => String.mk (c.toLower :: cs)

/-- The value a field of pointer-to-string type projects to. -/
def strValue (p : Option String) : AttrValue :=
  match p with
  | some s => .str s
  | none => .null

/-- The fields of a record with their values, in declaration order. -/
def recordFields (cr : Connection) : List (String × AttrValue) :=
  [("ConnectionId", strValue cr.ConnectionId),
   ("awsDeviceV2", strValue cr.awsDeviceV2),
   ("ConnectionFleetId", strValue cr.ConnectionFleetId),
   ("awsLogicalDeviceId", strValue cr.awsLogicalDeviceId),
   ("OutpostArn", strValue cr.OutpostArn),
   ("LagId", strValue cr.LagId),
   ("PlacementGroupArn", strValue cr.PlacementGroupArn),
   ("VLAN", match cr.VLAN with
            | some n => .int n
            | none => .null),
   ("Tags", .pairs (cr.Tags.map fun t => (t.Key, t.Value)))]

/-- Modelled from the spec: the projector `sources.ToAttributesCase`, which is
not under `src/`: every field of the record becomes an attribute whose name
is the field's name with its first letter lower-cased, except the fields
whose normalised name is excluded. -/
def specToAttributesCase (cr : Connection) (exclusions : List String) :
    Except String Attributes :=
  .ok (((recordFields cr).map fun f => (lowerFirst f.1, f.2)).filter
    fun f => !exclusions.contains f.1)

/-- The collaborators as the specification describes them. -/
def specDeps : Deps where
  ToAttributesCase := specToAttributesCase
  ParseARN := specParseARN
  FormatScope := specFormatScope
  tagsToMap := specTagsToMap

/-- The attributes hold `name` with a non-empty value. -/
def hasNonEmpty (attrs : Attributes) (name : String) : Bool :=
  attrs.any fun f =>
    f.1 == name &&
      match f.2 with
      | .null => false
      | .str s => s != ""
      | .int _ => true
      | .pairs kvs => !kvs.isEmpty

/-! ## What the mapper computes, stated directly -/

/-- Every field the mapper dereferences is present whenever the field it
tests before the dereference is present. -/
def DerefSafe (cr : Connection) : Prop :=
  (cr.awsDeviceV2.isSome = true → cr.ConnectionFleetId.isSome = true) ∧
  (cr.awsLogicalDeviceId.isSome = true → cr.OutpostArn.isSome = true) ∧
  (cr.LagId.isSome = true → cr.PlacementGroupArn.isSome = true) ∧
  (cr.VLAN.isSome = true → cr.PlacementGroupArn.isSome = true)

instance (cr : Connection) : Decidable (DerefSafe cr) := by
  unfold DerefSafe
  infer_instance

/-- The link of type `type_` for the identifier `s` parsed as `arn`. -/
def searchLink (d : Deps) (type_ s : String) (arn : ARN) : LinkedItemQuery where
  Query := {
    Type_ := type_
    Method := QueryMethod.SEARCH
    Query := s
    Scope := d.FormatScope arn.AccountID arn.Region }
  BlastPropagation := { In := true, Out := false }

/-- The device link with query `q`. -/
def getLink (scope q : String) : LinkedItemQuery where
  Query := {
    Type_ := "directconnect-aws-Device-V2"
    Method := QueryMethod.GET
    Query := q
    Scope := scope }
  BlastPropagation := { In := true, Out := false }

/-- The links one guarded identifier contributes: one when the tested field
is present and the identifier is present and parses, none otherwise. -/
def arnLinks (d : Deps) (type_ : String) (tested : Bool) (p : Option String) :
    List LinkedItemQuery :=
  match tested, p with
  | true, some s =>
    match d.ParseARN s with
    | .ok arn => [searchLink d type_ s arn]
    | .error _ => []
  | _, _ => []

/-- The device links of a record: one when both fields are present. -/
def deviceLinks (scope : String) (cr : Connection) : List LinkedItemQuery :=
  match cr.awsDeviceV2, cr.ConnectionFleetId with
  | some _, some q => [getLink scope q]
  | _, _ => []

/-- The links of the item of a record on which no dereference fails. -/
def expectedLinks (d : Deps) (scope : String) (cr : Connection) : List LinkedItemQuery :=
  deviceLinks scope cr ++
    (arnLinks d "directconnect-aws-logical-device" cr.awsLogicalDeviceId.isSome cr.OutpostArn ++
      (arnLinks d "directconnect-lag" cr.LagId.isSome cr.PlacementGroupArn ++
        arnLinks d "directconnect-vlan" cr.VLAN.isSome cr.PlacementGroupArn))

/-- The item of a record with projected attributes `attributes` on which no
dereference fails. -/
def itemOf (d : Deps) (scope : String) (cr : Connection) (attributes : Attributes) : Item where
  Type_ := "directconnect-connection"
  UniqueAttribute := "connectionId"
  Attributes := attributes
  Scope := scope
  Tags := d.tagsToMap cr.Tags
  LinkedItemQueries := expectedLinks d scope cr

/-- The item `it` is the one the loop body builds for the record `cr`. -/
def BuiltFrom (d : Deps) (scope : String) (cr : Connection) (it : Item) : Prop :=
  mapConnection d scope cr = .ok it

/-! ## The fetch paths of the source -/

/-- The rate-limit bucket `limit` handed to `NewConnectionSource`; `id` tells
one bucket from another. -/
structure LimitBucket where
  id : Nat
deriving DecidableEq, Repr

/-- What a fetch does, in order: a `limit.Wait` on a bucket or a provider
call `client.DescribeConnections`. -/
inductive Event where
  | limitWait (bucket : LimitBucket)
  | describeConnections (input : DescribeConnectionsInput)
deriving DecidableEq, Repr

/-- The provider client: the response of `client.DescribeConnections`. -/
abbrev Client := DescribeConnectionsInput → Except String DescribeConnectionsOutput

/-- The `sources.Paginator` a `PaginatorBuilder` returns: the steps the fetch
of one page takes, with the page. Continuation tokens are left out. -/
structure Paginator where
  NextPage : List Event × Except String DescribeConnectionsOutput

/-- Lines 130-133, the `DescribeFunc` of `NewConnectionSource`: a wait on
`limit`, then the provider call. -/
def NewConnectionSource.DescribeFunc (limit : LimitBucket) (client : Client)
    (input : DescribeConnectionsInput) :
    List Event × Except String DescribeConnectionsOutput :=
  ([.limitWait limit, .describeConnections input], client input)

/-- Lines 142-144, the `PaginatorBuilder` of `NewConnectionSource`: the
paginator `newPaginator client params` of the provider SDK. The bucket `limit`
is in scope and the closure does not read it. -/
def NewConnectionSource.PaginatorBuilder
    (newPaginator : Client → DescribeConnectionsInput → Paginator) (_limit : LimitBucket)
    (client : Client) (params : DescribeConnectionsInput) : Paginator :=
  newPaginator client params

/-- Modelled from the spec: the paginator of the provider SDK
(`directconnect.NewDescribeConnectionsPaginator`), which is not under `src/`:
the fetch of a page is one invocation of the provider's fetch operation with
the request. -/
def specNewDescribeConnectionsPaginator (client : Client) (params : DescribeConnectionsInput) :
    Paginator where
  NextPage := ([.describeConnections params], client params)

/-- Every provider call of the trace comes right after one wait on `limit`,
and the trace holds no other wait. -/
def rateLimited (limit : LimitBucket) : List Event → Bool
  | [] => true
  | .limitWait bucket :: .describeConnections _ :: rest =>
    decide (bucket = limit) && rateLimited limit rest
  | _ => false

/-- The types of the links of an item, in order. -/
def linkTypes (item : Item) : List String :=
  item.LinkedItemQueries.map fun l => l.Query.Type_

/-- The four link types in the order of the branches of the mapper. -/
def linkTypeOrder : List String :=
  ["directconnect-aws-Device-V2", "directconnect-aws-logical-device", "directconnect-lag",
    "directconnect-vlan"]

/-! ## Concrete records -/

/-- A record with every cross-reference present and well formed. -/
def fullConnection : Connection where
  ConnectionId := some "dxcon-fg5678gh"
  awsDeviceV2 := some "EqDC2-123h49s71dabc"
  ConnectionFleetId := some "fleet-1"
  awsLogicalDeviceId := some "ld-1"
  OutpostArn := some "arn:aws:outposts:us-east-1:222222222222:outpost/op-1"
  LagId := some "dxlag-ffabc123"
  PlacementGroupArn := some "arn:aws:ec2:eu-west-2:333333333333:placement-group/pg-1"
  VLAN := some 101
  Tags := [{ Key := "env", Value := "prod" }]

/-- The logical-device link of `fullConnection`. -/
def fullLogicalDeviceLink : LinkedItemQuery where
  Query := {
    Type_ := "directconnect-aws-logical-device"
    Method := QueryMethod.SEARCH
    Query := "arn:aws:outposts:us-east-1:222222222222:outpost/op-1"
    Scope := "222222222222.us-east-1" }
  BlastPropagation := { In := true, Out := false }

/-- The item of `fullConnection` in the scope `111111111111.eu-west-2`. -/
def fullItem : Item where
  Type_ := "directconnect-connection"
  UniqueAttribute := "connectionId"
  Attributes := [
    ("connectionId", .str "dxcon-fg5678gh"),
    ("awsDeviceV2", .str "EqDC2-123h49s71dabc"),
    ("connectionFleetId", .str "fleet-1"),
    ("awsLogicalDeviceId", .str "ld-1"),
    ("outpostArn", .str "arn:aws:outposts:us-east-1:222222222222:outpost/op-1"),
    ("lagId", .str "dxlag-ffabc123"),
    ("placementGroupArn", .str "arn:aws:ec2:eu-west-2:333333333333:placement-group/pg-1"),
    ("vLAN", .int 101)]
  Scope := "111111111111.eu-west-2"
  Tags := [("env", "prod")]
  LinkedItemQueries := [
    { Query := {
        Type_ := "directconnect-aws-Device-V2"
        Method := QueryMethod.GET
        Query := "fleet-1"
        Scope := "111111111111.eu-west-2" }
      BlastPropagation := { In := true, Out := false } },
    fullLogicalDeviceLink,
    { Query := {
        Type_ := "directconnect-lag"
        Method := QueryMethod.SEARCH
        Query := "arn:aws:ec2:eu-west-2:333333333333:placement-group/pg-1"
        Scope := "333333333333.eu-west-2" }
      BlastPropagation := { In := true, Out := false } },
    { Query := {
        Type_ := "directconnect-vlan"
        Method := QueryMethod.SEARCH
        Query := "arn:aws:ec2:eu-west-2:333333333333:placement-group/pg-1"
        Scope := "333333333333.eu-west-2" }
      BlastPropagation := { In := true, Out := false } }]

/-- A record as the provider describes a connection: an identifier and a
device, no fleet identifier. -/
def plainConnection : Connection where
  ConnectionId := some "dxcon-fg5678gh"
  awsDeviceV2 := some "EqDC2-123h49s71dabc"

/-- A record without an identifier. -/
def anonymousConnection : Connection where
  Tags := [{ Key := "env", Value := "prod" }]

/-- A record whose identifier is the empty string. -/
def blankConnection : Connection where
  ConnectionId := some ""

/-- A record with a device and a fleet identifier that differ. -/
def fleetConnection : Connection where
  ConnectionId := some "dxcon-fg5678gh"
  awsDeviceV2 := some "dev-9"
  ConnectionFleetId := some "fleet-1"

/-- A record whose tested fields `awsLogicalDeviceId` and `LagId` hold
well-formed identifiers that differ from the ones in `OutpostArn` and
`PlacementGroupArn`. -/
def crossedConnection : Connection where
  ConnectionId := some "dxcon-fg5678gh"
  awsLogicalDeviceId := some "arn:aws:directconnect:eu-west-2:111111111111:device/ld-1"
  OutpostArn := some "arn:aws:outposts:us-east-1:222222222222:outpost/op-1"
  LagId := some "arn:aws:directconnect:eu-west-2:111111111111:dxlag/dxlag-ffabc123"
  PlacementGroupArn := some "arn:aws:ec2:eu-west-2:333333333333:placement-group/pg-1"

/-- A record with a malformed `PlacementGroupArn`, a logical device and no
`OutpostArn`. -/
def malformedConnection : Connection where
  ConnectionId := some "dxcon-fg5678gh"
  awsLogicalDeviceId := some "ld-1"
  LagId := some "dxlag-ffabc123"
  PlacementGroupArn := some "not-an-arn"

/-- A record with a logical device and no `OutpostArn`. -/
def logicalDeviceOnlyConnection : Connection where
  ConnectionId := some "dxcon-fg5678gh"
  awsLogicalDeviceId := some "ld-1"

/-- A record with a LAG and no `PlacementGroupArn`. -/
def lagOnlyConnection : Connection where
  ConnectionId := some "dxcon-fg5678gh"
  LagId := some "dxlag-ffabc123"

/-- A record with a VLAN and no `PlacementGroupArn`. -/
def vlanOnlyConnection : Connection where
  ConnectionId := some "dxcon-fg5678gh"
  VLAN := some 101

/-- A record with an identifier, tags and no cross-reference. -/
def bareConnection : Connection where
  ConnectionId := some "dxcon-fg5678gh"
  Tags := [{ Key := "env", Value := "prod" }]

/-- A provider client that answers every request with one record. -/
def oneRecordClient : Client :=
  fun _ => .ok { Connections := [bareConnection] }

/-- A projector that can fail: it rejects a record without an identifier and
projects the others as `specToAttributesCase` does. -/
def strictToAttributesCase (cr : Connection) (exclusions : List String) :
    Except String Attributes :=
  match cr.ConnectionId with
  | none => .error "AttributeProjectionError: no connectionId"
  | some _ => specToAttributesCase cr exclusions

/-- The collaborators of `specDeps` with the projector that can fail. -/
def strictDeps : Deps where
  ToAttributesCase := strictToAttributesCase
  ParseARN := specParseARN
  FormatScope := specFormatScope
  tagsToMap := specTagsToMap

end DirectConnect

namespace DirectConnect

/-! ## The links of one record -/

theorem arnLink_eq (d : Deps) (type_ : String) (p : Option String)
    (links : List LinkedItemQuery) :
    arnLink d type_ p links =
      if p.isSome = true then .ok (links ++ arnLinks d type_ true p) else .nilDeref := by
  cases p with
  | none => simp [arnLink, deref, Outcome.bind]
  | some s =>
    cases h : d.ParseARN s <;> simp [arnLink, deref, Outcome.bind, arnLinks, searchLink, h]

theorem deviceLink_eq (scope : String) (cr : Connection) (links : List LinkedItemQuery) :
    deviceLink scope cr links =
      if cr.awsDeviceV2.isSome = true → cr.ConnectionFleetId.isSome = true then
        .ok (links ++ deviceLinks scope cr)
      else .nilDeref := by
  unfold deviceLink deviceLinks
  cases cr.awsDeviceV2 <;> cases cr.ConnectionFleetId <;> simp [deref, Outcome.bind, getLink]

theorem guarded_arnLink_eq (d : Deps) (type_ : String) (tested : Bool) (p : Option String)
    (links : List LinkedItemQuery) :
    (if tested = true then arnLink d type_ p links else .ok links) =
      if tested = true → p.isSome = true then .ok (links ++ arnLinks d type_ tested p)
      else .nilDeref := by
  cases tested with
  | false => simp [arnLinks]
  | true => simp [arnLink_eq]

theorem buildLinks_eq (d : Deps) (scope : String) (cr : Connection) :
    buildLinks d scope cr =
      if DerefSafe cr then .ok (expectedLinks d scope cr) else .nilDeref := by
  unfold buildLinks logicalDeviceLink lagLink vlanLink DerefSafe expectedLinks
  rw [deviceLink_eq]
  by_cases h1 : cr.awsDeviceV2.isSome = true → cr.ConnectionFleetId.isSome = true
  · by_cases h2 : cr.awsLogicalDeviceId.isSome = true → cr.OutpostArn.isSome = true
    · by_cases h3 : cr.LagId.isSome = true → cr.PlacementGroupArn.isSome = true
      · by_cases h4 : cr.VLAN.isSome = true → cr.PlacementGroupArn.isSome = true
        · rw [if_pos (And.intro h1 (And.intro h2 (And.intro h3 h4)))]
          simp only [Outcome.bind, guarded_arnLink_eq, if_pos h1, if_pos h2, if_pos h3, if_pos h4,
            List.nil_append, List.append_assoc]
        · have hn : ¬((cr.awsDeviceV2.isSome = true → cr.ConnectionFleetId.isSome = true) ∧
              (cr.awsLogicalDeviceId.isSome = true → cr.OutpostArn.isSome = true) ∧
              (cr.LagId.isSome = true → cr.PlacementGroupArn.isSome = true) ∧
              (cr.VLAN.isSome = true → cr.PlacementGroupArn.isSome = true)) :=
            fun h => h4 h.2.2.2
          rw [if_neg hn]
          simp only [Outcome.bind, guarded_arnLink_eq, if_pos h1, if_pos h2, if_pos h3, if_neg h4]
      · have hn : ¬((cr.awsDeviceV2.isSome = true → cr.ConnectionFleetId.isSome = true) ∧
            (cr.awsLogicalDeviceId.isSome = true → cr.OutpostArn.isSome = true) ∧
            (cr.LagId.isSome = true → cr.PlacementGroupArn.isSome = true) ∧
            (cr.VLAN.isSome = true → cr.PlacementGroupArn.isSome = true)) :=
          fun h => h3 h.2.2.1
        rw [if_neg hn]
        simp only [Outcome.bind, guarded_arnLink_eq, if_pos h1, if_pos h2, if_neg h3]
    · have hn : ¬((cr.awsDeviceV2.isSome = true → cr.ConnectionFleetId.isSome = true) ∧
          (cr.awsLogicalDeviceId.isSome = true → cr.OutpostArn.isSome = true) ∧
          (cr.LagId.isSome = true → cr.PlacementGroupArn.isSome = true) ∧
          (cr.VLAN.isSome = true → cr.PlacementGroupArn.isSome = true)) :=
        fun h => h2 h.2.1
      rw [if_neg hn]
      simp only [Outcome.bind, guarded_arnLink_eq, if_pos h1, if_neg h2]
  · have hn : ¬((cr.awsDeviceV2.isSome = true → cr.ConnectionFleetId.isSome = true) ∧
        (cr.awsLogicalDeviceId.isSome = true → cr.OutpostArn.isSome = true) ∧
        (cr.LagId.isSome = true → cr.PlacementGroupArn.isSome = true) ∧
        (cr.VLAN.isSome = true → cr.PlacementGroupArn.isSome = true)) :=
      fun h => h1 h.1
    rw [if_neg hn]
    simp only [Outcome.bind, if_neg h1]

/-! ## One record -/

theorem mapConnection_eq (d : Deps) (scope : String) (cr : Connection) :
    mapConnection d scope cr =
      match d.ToAttributesCase cr ["tags"] with
      | .error err => .error err
      | .ok attributes =>
        if DerefSafe cr then .ok (itemOf d scope cr attributes) else .nilDeref := by
  unfold mapConnection
  cases d.ToAttributesCase cr ["tags"] with
  | error err => rfl
  | ok attributes =>
    by_cases hs : DerefSafe cr
    · simp only [buildLinks_eq, if_pos hs, Outcome.bind, itemOf]
    · simp only [buildLinks_eq, if_neg hs, Outcome.bind]

theorem mapConnection_ok_iff (d : Deps) (scope : String) (cr : Connection) (it : Item) :
    mapConnection d scope cr = .ok it ↔
      ∃ attributes, d.ToAttributesCase cr ["tags"] = .ok attributes ∧ DerefSafe cr ∧
        it = itemOf d scope cr attributes := by
  rw [mapConnection_eq]
  cases h : d.ToAttributesCase cr ["tags"] with
  | error err => simp
  | ok attributes =>
    by_cases hs : DerefSafe cr
    · simp only [if_pos hs, Outcome.ok.injEq, Except.ok.injEq, exists_eq_left', hs, true_and,
        if_true]
      exact eq_comm
    · simp [if_neg hs, hs]

theorem mapConnection_error_iff (d : Deps) (scope : String) (cr : Connection) (err : String) :
    mapConnection d scope cr = .error err ↔ d.ToAttributesCase cr ["tags"] = .error err := by
  rw [mapConnection_eq]
  cases h : d.ToAttributesCase cr ["tags"] with
  | error e => simp
  | ok attributes => by_cases hs : DerefSafe cr <;> simp [hs]

theorem mapConnection_nilDeref_iff (d : Deps) (scope : String) (cr : Connection) :
    mapConnection d scope cr = .nilDeref ↔
      (∃ attributes, d.ToAttributesCase cr ["tags"] = .ok attributes) ∧ ¬DerefSafe cr := by
  rw [mapConnection_eq]
  cases h : d.ToAttributesCase cr ["tags"] with
  | error e => simp
  | ok attributes => by_cases hs : DerefSafe cr <;> simp [hs]

/-! ## The loop -/

theorem mapLoop_acc (d : Deps) (scope : String) (recs : List Connection) (acc : List Item) :
    mapLoop d scope recs acc = (mapLoop d scope recs []).bind fun r => .ok (acc ++ r) := by
  induction recs generalizing acc with
  | nil => simp [mapLoop, Outcome.bind]
  | cons cr rest ih =>
    unfold mapLoop
    cases h : mapConnection d scope cr with
    | ok item =>
      simp only []
      rw [ih (acc ++ [item]), ih ([] ++ [item])]
      cases mapLoop d scope rest [] <;> simp [Outcome.bind]
    | error err => simp [Outcome.bind]
    | nilDeref => simp [Outcome.bind]

theorem mapLoop_cons (d : Deps) (scope : String) (cr : Connection) (rest : List Connection) :
    mapLoop d scope (cr :: rest) [] =
      (mapConnection d scope cr).bind fun item =>
        (mapLoop d scope rest []).bind fun r => .ok (item :: r) := by
  conv_lhs => unfold mapLoop
  cases h : mapConnection d scope cr with
  | ok item =>
    simp only [Outcome.bind]
    rw [mapLoop_acc]
    cases mapLoop d scope rest [] <;> simp [Outcome.bind]
  | error err => simp [Outcome.bind]
  | nilDeref => simp [Outcome.bind]

theorem mapLoop_append (d : Deps) (scope : String) (xs ys : List Connection) :
    mapLoop d scope (xs ++ ys) [] =
      (mapLoop d scope xs []).bind fun a =>
        (mapLoop d scope ys []).bind fun b => .ok (a ++ b) := by
  induction xs with
  | nil =>
    simp only [List.nil_append, mapLoop, Outcome.bind]
    cases mapLoop d scope ys [] <;> rfl
  | cons cr rest ih =>
    rw [List.cons_append, mapLoop_cons, mapLoop_cons, ih]
    cases mapConnection d scope cr with
    | ok item =>
      simp only [Outcome.bind]
      cases mapLoop d scope rest [] with
      | ok a =>
        simp only []
        cases mapLoop d scope ys [] <;> simp
      | error err => rfl
      | nilDeref => rfl
    | error err => rfl
    | nilDeref => rfl

theorem mapLoop_ok_iff (d : Deps) (scope : String) (recs : List Connection)
    (items : List Item) :
    mapLoop d scope recs [] = .ok items ↔ List.Forall₂ (BuiltFrom d scope) recs items := by
  induction recs generalizing items with
  | nil =>
    simp only [mapLoop, Outcome.ok.injEq, List.forall₂_nil_left_iff]
    exact eq_comm
  | cons cr rest ih =>
    rw [mapLoop_cons, List.forall₂_cons_left_iff]
    constructor
    · intro h
      cases hc : mapConnection d scope cr with
      | ok item =>
        rw [hc] at h
        simp only [Outcome.bind] at h
        cases hr : mapLoop d scope rest [] with
        | ok r =>
          rw [hr] at h
          simp only [Outcome.ok.injEq] at h
          exact ⟨item, r, hc, (ih r).mp hr, h.symm⟩
        | error err => rw [hr] at h; simp at h
        | nilDeref => rw [hr] at h; simp at h
      | error err => rw [hc] at h; simp [Outcome.bind] at h
      | nilDeref => rw [hc] at h; simp [Outcome.bind] at h
    · rintro ⟨item, r, hc, hr, rfl⟩
      have hc2 : mapConnection d scope cr = .ok item := hc
      rw [hc2, (ih r).mpr hr]
      rfl

theorem mapper_ok_iff (d : Deps) (scope : String) (output : DescribeConnectionsOutput)
    (items : List Item) :
    connectionOutputMapper d scope output = .ok items ↔
      List.Forall₂ (BuiltFrom d scope) output.Connections items :=
  mapLoop_ok_iff d scope output.Connections items

theorem forall₂_of_mem_right {α β : Type} {R : α → β → Prop} {xs : List α} {ys : List β}
    (h : List.Forall₂ R xs ys) {y : β} (hy : y ∈ ys) : ∃ x, x ∈ xs ∧ R x y := by
  induction h with
  | nil => simp at hy
  | cons hxy _ ih =>
    rcases List.mem_cons.mp hy with rfl | hmem
    · exact ⟨_, List.mem_cons_self _ _, hxy⟩
    · obtain ⟨x, hx, hr⟩ := ih hmem
      exact ⟨x, List.mem_cons_of_mem _ hx, hr⟩

theorem forall₂_at {α β : Type} {R : α → β → Prop} {xs : List α} {ys : List β}
    (h : List.Forall₂ R xs ys) (i : Nat) {x : α} (hx : xs[i]? = some x) :
    ∃ y, ys[i]? = some y ∧ R x y := by
  induction h generalizing i with
  | nil => simp at hx
  | cons hxy _ ih =>
    cases i with
    | zero =>
      simp only [List.getElem?_cons_zero, Option.some.injEq] at hx
      subst hx
      exact ⟨_, by simp, hxy⟩
    | succ j =>
      simp only [List.getElem?_cons_succ] at hx
      simpa using ih j hx

/-! ## Membership in the links of an item -/

theorem mem_arnLinks (d : Deps) (type_ : String) (tested : Bool) (p : Option String)
    (l : LinkedItemQuery) :
    l ∈ arnLinks d type_ tested p ↔
      tested = true ∧ ∃ s arn, p = some s ∧ d.ParseARN s = .ok arn ∧
        l = searchLink d type_ s arn := by
  cases tested with
  | false => simp [arnLinks]
  | true =>
    cases p with
    | none => simp [arnLinks]
    | some s => cases h : d.ParseARN s <;> simp [arnLinks, h]

theorem mem_deviceLinks (scope : String) (cr : Connection) (l : LinkedItemQuery) :
    l ∈ deviceLinks scope cr ↔
      cr.awsDeviceV2.isSome = true ∧ ∃ q, cr.ConnectionFleetId = some q ∧ l = getLink scope q := by
  unfold deviceLinks
  cases cr.awsDeviceV2 <;> cases cr.ConnectionFleetId <;> simp

theorem mem_expectedLinks (d : Deps) (scope : String) (cr : Connection) (l : LinkedItemQuery) :
    l ∈ expectedLinks d scope cr ↔
      l ∈ deviceLinks scope cr ∨
      l ∈ arnLinks d "directconnect-aws-logical-device" cr.awsLogicalDeviceId.isSome
        cr.OutpostArn ∨
      l ∈ arnLinks d "directconnect-lag" cr.LagId.isSome cr.PlacementGroupArn ∨
      l ∈ arnLinks d "directconnect-vlan" cr.VLAN.isSome cr.PlacementGroupArn := by
  simp only [expectedLinks, List.mem_append]

/-- The item that contains a link of a successful call was built from a record
of the response, and the link is one of that record's links. -/
theorem link_origin (d : Deps) (scope : String) (output : DescribeConnectionsOutput)
    (items : List Item) (item : Item) (l : LinkedItemQuery)
    (h : connectionOutputMapper d scope output = .ok items) (hi : item ∈ items)
    (hl : l ∈ item.LinkedItemQueries) :
    ∃ cr, cr ∈ output.Connections ∧ DerefSafe cr ∧
      (∃ attributes, d.ToAttributesCase cr ["tags"] = .ok attributes) ∧
      l ∈ expectedLinks d scope cr := by
  obtain ⟨cr, hcr, hb⟩ := forall₂_of_mem_right ((mapper_ok_iff d scope output items).mp h) hi
  obtain ⟨attributes, hp, hs, rfl⟩ := (mapConnection_ok_iff d scope cr item).mp hb
  exact ⟨cr, hcr, hs, ⟨attributes, hp⟩, hl⟩

theorem exists_built_iff (d : Deps) (scope : String) (cr : Connection) :
    (∃ it, BuiltFrom d scope cr it) ↔
      (∃ attributes, d.ToAttributesCase cr ["tags"] = .ok attributes) ∧ DerefSafe cr := by
  constructor
  · rintro ⟨it, hb⟩
    obtain ⟨attributes, hp, hs, _⟩ := (mapConnection_ok_iff d scope cr it).mp hb
    exact ⟨⟨attributes, hp⟩, hs⟩
  · rintro ⟨⟨attributes, hp⟩, hs⟩
    exact ⟨_, (mapConnection_ok_iff d scope cr _).mpr ⟨attributes, hp, hs, rfl⟩⟩

theorem exists_forall₂ {α β : Type} {R : α → β → Prop} (xs : List α) :
    (∃ ys, List.Forall₂ R xs ys) ↔ ∀ x, x ∈ xs → ∃ y, R x y := by
  induction xs with
  | nil => simp
  | cons x rest ih =>
    constructor
    · rintro ⟨ys, h⟩ a ha
      obtain ⟨y, ys1, hxy, hrest, rfl⟩ := List.forall₂_cons_left_iff.mp h
      rcases List.mem_cons.mp ha with rfl | hmem
      · exact ⟨y, hxy⟩
      · exact ih.mp ⟨ys1, hrest⟩ a hmem
    · intro h
      obtain ⟨y, hxy⟩ := h x (List.mem_cons_self _ _)
      obtain ⟨ys1, hrest⟩ := ih.mpr fun a ha => h a (List.mem_cons_of_mem _ ha)
      exact ⟨y :: ys1, List.Forall₂.cons hxy hrest⟩

theorem forall₂_of_mem_left {α β : Type} {R : α → β → Prop} {xs : List α} {ys : List β}
    (h : List.Forall₂ R xs ys) {x : α} (hx : x ∈ xs) : ∃ y, y ∈ ys ∧ R x y := by
  induction h with
  | nil => simp at hx
  | cons hxy _ ih =>
    rcases List.mem_cons.mp hx with rfl | hmem
    · exact ⟨_, List.mem_cons_self _ _, hxy⟩
    · obtain ⟨y, hy, hr⟩ := ih hmem
      exact ⟨y, List.mem_cons_of_mem _ hy, hr⟩

/-- The mapper returns items exactly when every record projects and no
dereference of a record fails; the scope plays no part. -/
theorem mapper_succeeds_iff (d : Deps) (scope : String) (output : DescribeConnectionsOutput) :
    (∃ items, connectionOutputMapper d scope output = .ok items) ↔
      ∀ cr, cr ∈ output.Connections →
        (∃ attributes, d.ToAttributesCase cr ["tags"] = .ok attributes) ∧ DerefSafe cr := by
  simp only [mapper_ok_iff, exists_forall₂, exists_built_iff]

/-! ## The types of the links of an item -/

theorem arnLinks_types_sublist (d : Deps) (type_ : String) (tested : Bool)
    (p : Option String) :
    List.Sublist ((arnLinks d type_ tested p).map fun l => l.Query.Type_) [type_] := by
  cases tested with
  | false => simp [arnLinks]
  | true =>
    cases p with
    | none => simp [arnLinks]
    | some s => cases h : d.ParseARN s <;> simp [arnLinks, h, searchLink]

theorem deviceLinks_types_sublist (scope : String) (cr : Connection) :
    List.Sublist ((deviceLinks scope cr).map fun l => l.Query.Type_)
      ["directconnect-aws-Device-V2"] := by
  unfold deviceLinks
  cases cr.awsDeviceV2 <;> cases cr.ConnectionFleetId <;> simp [getLink]

theorem expectedLinks_types_sublist (d : Deps) (scope : String) (cr : Connection) :
    List.Sublist ((expectedLinks d scope cr).map fun l => l.Query.Type_) linkTypeOrder := by
  unfold expectedLinks
  simp only [List.map_append]
  exact (deviceLinks_types_sublist scope cr).append
    ((arnLinks_types_sublist d _ _ _).append
      ((arnLinks_types_sublist d _ _ _).append (arnLinks_types_sublist d _ _ _)))

/-- A link of a record has the type of a branch whose tested field is
present. -/
theorem type_of_mem_expectedLinks (d : Deps) (scope : String) (cr : Connection)
    (l : LinkedItemQuery) (h : l ∈ expectedLinks d scope cr) :
    (l.Query.Type_ = "directconnect-aws-Device-V2" ∧ cr.awsDeviceV2.isSome = true) ∨
    (l.Query.Type_ = "directconnect-aws-logical-device" ∧
      cr.awsLogicalDeviceId.isSome = true) ∨
    (l.Query.Type_ = "directconnect-lag" ∧ cr.LagId.isSome = true) ∨
    (l.Query.Type_ = "directconnect-vlan" ∧ cr.VLAN.isSome = true) := by
  rcases (mem_expectedLinks d scope cr l).mp h with h1 | h1 | h1 | h1
  · obtain ⟨hp, q, _, rfl⟩ := (mem_deviceLinks scope cr l).mp h1
    exact Or.inl ⟨rfl, hp⟩
  · obtain ⟨hp, s, arn, _, _, rfl⟩ := (mem_arnLinks d _ _ _ l).mp h1
    exact Or.inr (Or.inl ⟨rfl, hp⟩)
  · obtain ⟨hp, s, arn, _, _, rfl⟩ := (mem_arnLinks d _ _ _ l).mp h1
    exact Or.inr (Or.inr (Or.inl ⟨rfl, hp⟩))
  · obtain ⟨hp, s, arn, _, _, rfl⟩ := (mem_arnLinks d _ _ _ l).mp h1
    exact Or.inr (Or.inr (Or.inr ⟨rfl, hp⟩))

/-- A link type occurs among the links of a record only when the field tested
for it is present. -/
theorem tested_of_type_mem (d : Deps) (scope : String) (cr : Connection)
    (attributes : Attributes) :
    ("directconnect-aws-Device-V2" ∈ linkTypes (itemOf d scope cr attributes) →
      cr.awsDeviceV2.isSome = true) ∧
    ("directconnect-aws-logical-device" ∈ linkTypes (itemOf d scope cr attributes) →
      cr.awsLogicalDeviceId.isSome = true) ∧
    ("directconnect-lag" ∈ linkTypes (itemOf d scope cr attributes) →
      cr.LagId.isSome = true) ∧
    ("directconnect-vlan" ∈ linkTypes (itemOf d scope cr attributes) →
      cr.VLAN.isSome = true) := by
  refine ⟨?_, ?_, ?_, ?_⟩ <;>
    · intro hmem
      obtain ⟨l, hl, ht⟩ := List.mem_map.mp hmem
      rcases type_of_mem_expectedLinks d scope cr l hl with h1 | h1 | h1 | h1 <;>
        · obtain ⟨ht2, hp⟩ := h1
          rw [ht2] at ht
          first
            | exact hp
            | exact absurd ht (by decide)

/-! ## Where the loop stops -/

/-- The loop returns the error `err` exactly when the body returns it on some
record and builds an item for every record before it. -/
theorem mapLoop_error_iff (d : Deps) (scope : String) (recs : List Connection) (err : String) :
    mapLoop d scope recs [] = .error err ↔
      ∃ pre cr post, recs = pre ++ cr :: post ∧
        (∀ x, x ∈ pre → ∃ it, BuiltFrom d scope x it) ∧ mapConnection d scope cr = .error err := by
  induction recs with
  | nil =>
    constructor
    · intro h
      simp [mapLoop] at h
    · rintro ⟨pre, cr, post, hsplit, _, _⟩
      simp at hsplit
  | cons x rest ih =>
    rw [mapLoop_cons]
    constructor
    · intro h
      cases hx : mapConnection d scope x with
      | ok item =>
        rw [hx] at h
        simp only [Outcome.bind] at h
        have hr : mapLoop d scope rest [] = .error err := by
          cases hr2 : mapLoop d scope rest [] with
          | ok r => rw [hr2] at h; simp at h
          | error e2 =>
            rw [hr2] at h
            simpa using h
          | nilDeref =>
            rw [hr2] at h
            simp at h
        obtain ⟨pre, cr, post, hsplit, hpre, hcr⟩ := ih.mp hr
        refine ⟨x :: pre, cr, post, by simp [hsplit], ?_, hcr⟩
        intro y hy
        rcases List.mem_cons.mp hy with rfl | hmem
        · exact ⟨item, hx⟩
        · exact hpre y hmem
      | error e2 =>
        rw [hx] at h
        simp only [Outcome.bind, Outcome.error.injEq] at h
        exact ⟨[], x, rest, rfl, by simp, by rw [hx, h]⟩
      | nilDeref =>
        rw [hx] at h
        simp [Outcome.bind] at h
    · rintro ⟨pre, cr, post, hsplit, hpre, hcr⟩
      cases pre with
      | nil =>
        simp only [List.nil_append, List.cons.injEq] at hsplit
        obtain ⟨rfl, rfl⟩ := hsplit
        rw [hcr]
        rfl
      | cons y pre2 =>
        simp only [List.cons_append, List.cons.injEq] at hsplit
        obtain ⟨rfl, rfl⟩ := hsplit
        obtain ⟨item, hitem⟩ := hpre x (List.mem_cons_self _ _)
        have hrest : mapLoop d scope (pre2 ++ cr :: post) [] = .error err :=
          ih.mpr ⟨pre2, cr, post, rfl, fun z hz => hpre z (List.mem_cons_of_mem _ hz), hcr⟩
        have hitem2 : mapConnection d scope x = .ok item := hitem
        rw [hitem2, hrest]
        rfl

/-- The loop crashes exactly when the body crashes on some record and builds
an item for every record before it. -/
theorem mapLoop_nilDeref_iff (d : Deps) (scope : String) (recs : List Connection) :
    mapLoop d scope recs [] = .nilDeref ↔
      ∃ pre cr post, recs = pre ++ cr :: post ∧
        (∀ x, x ∈ pre → ∃ it, BuiltFrom d scope x it) ∧ mapConnection d scope cr = .nilDeref := by
  induction recs with
  | nil =>
    constructor
    · intro h
      simp [mapLoop] at h
    · rintro ⟨pre, cr, post, hsplit, _, _⟩
      simp at hsplit
  | cons x rest ih =>
    rw [mapLoop_cons]
    constructor
    · intro h
      cases hx : mapConnection d scope x with
      | ok item =>
        rw [hx] at h
        simp only [Outcome.bind] at h
        have hr : mapLoop d scope rest [] = .nilDeref := by
          cases hr2 : mapLoop d scope rest [] with
          | ok r => rw [hr2] at h; simp at h
          | error e2 =>
            rw [hr2] at h
            simp at h
          | nilDeref => rfl
        obtain ⟨pre, cr, post, hsplit, hpre, hcr⟩ := ih.mp hr
        refine ⟨x :: pre, cr, post, by simp [hsplit], ?_, hcr⟩
        intro y hy
        rcases List.mem_cons.mp hy with rfl | hmem
        · exact ⟨item, hx⟩
        · exact hpre y hmem
      | error e2 =>
        rw [hx] at h
        simp [Outcome.bind] at h
      | nilDeref => exact ⟨[], x, rest, rfl, by simp, hx⟩
    · rintro ⟨pre, cr, post, hsplit, hpre, hcr⟩
      cases pre with
      | nil =>
        simp only [List.nil_append, List.cons.injEq] at hsplit
        obtain ⟨rfl, rfl⟩ := hsplit
        rw [hcr]
        rfl
      | cons y pre2 =>
        simp only [List.cons_append, List.cons.injEq] at hsplit
        obtain ⟨rfl, rfl⟩ := hsplit
        obtain ⟨item, hitem⟩ := hpre x (List.mem_cons_self _ _)
        have hrest : mapLoop d scope (pre2 ++ cr :: post) [] = .nilDeref :=
          ih.mpr ⟨pre2, cr, post, rfl, fun z hz => hpre z (List.mem_cons_of_mem _ hz), hcr⟩
        have hitem2 : mapConnection d scope x = .ok item := hitem
        rw [hitem2, hrest]
        rfl

/-! ## The claims -/

/-- C1 fails on the code: `malformedConnection` carries a `PlacementGroupArn`
that `ParseARN` rejects, its projection succeeds, and the mapper returns no
item for it: it crashes on the dereference of the absent `OutpostArn`, which
it reads because `awsLogicalDeviceId` is present. -/
theorem malformed_reference_record_crashes :
    malformedConnection.PlacementGroupArn = some "not-an-arn" ∧
    (∃ err, specParseARN "not-an-arn" = .error err) ∧
    (∃ attributes, specToAttributesCase malformedConnection ["tags"] = .ok attributes) ∧
    connectionOutputMapper specDeps "111111111111.eu-west-2" ⟨[malformedConnection]⟩ =
      .nilDeref :=
  ⟨rfl, ⟨_, rfl⟩, ⟨_, rfl⟩, rfl⟩

/-- C2 fails on the code: for `fleetConnection`, whose device field
`awsDeviceV2` is `dev-9`, the device link has `Query` `fleet-1`, the value of
`ConnectionFleetId`; for `plainConnection`, whose device field is present and
whose `ConnectionFleetId` is absent, the mapper crashes and emits no link. -/
theorem device_link_query_is_fleet_id :
    fleetConnection.awsDeviceV2 = some "dev-9" ∧
    (∃ item, connectionOutputMapper specDeps "111111111111.eu-west-2" ⟨[fleetConnection]⟩ =
        .ok [item] ∧
      item.LinkedItemQueries = [{
        Query := {
          Type_ := "directconnect-aws-Device-V2"
          Method := QueryMethod.GET
          Query := "fleet-1"
          Scope := "111111111111.eu-west-2" }
        BlastPropagation := { In := true, Out := false } }]) ∧
    plainConnection.awsDeviceV2 = some "EqDC2-123h49s71dabc" ∧
    connectionOutputMapper specDeps "111111111111.eu-west-2" ⟨[plainConnection]⟩ = .nilDeref :=
  ⟨rfl, ⟨_, rfl, rfl⟩, rfl, rfl⟩

/-- C3 fails on the code: for `crossedConnection` the tested fields
`awsLogicalDeviceId` and `LagId` are present and parse, and the links emitted
have as `Query` the strings of `OutpostArn` and `PlacementGroupArn`, with the
scopes of those. -/
theorem search_link_query_is_other_field :
    (∃ arn, specParseARN "arn:aws:directconnect:eu-west-2:111111111111:device/ld-1" = .ok arn) ∧
    crossedConnection.awsLogicalDeviceId =
      some "arn:aws:directconnect:eu-west-2:111111111111:device/ld-1" ∧
    (∃ arn, specParseARN "arn:aws:directconnect:eu-west-2:111111111111:dxlag/dxlag-ffabc123" =
      .ok arn) ∧
    crossedConnection.LagId =
      some "arn:aws:directconnect:eu-west-2:111111111111:dxlag/dxlag-ffabc123" ∧
    ∃ item, connectionOutputMapper specDeps "111111111111.eu-west-2" ⟨[crossedConnection]⟩ =
        .ok [item] ∧
      item.LinkedItemQueries.map (fun l => l.Query) = [
        { Type_ := "directconnect-aws-logical-device"
          Method := QueryMethod.SEARCH
          Query := "arn:aws:outposts:us-east-1:222222222222:outpost/op-1"
          Scope := "222222222222.us-east-1" },
        { Type_ := "directconnect-lag"
          Method := QueryMethod.SEARCH
          Query := "arn:aws:ec2:eu-west-2:333333333333:placement-group/pg-1"
          Scope := "333333333333.eu-west-2" }] :=
  ⟨⟨_, rfl⟩, rfl, ⟨_, rfl⟩, rfl, _, rfl, rfl⟩

/-- C4: every SEARCH link of a returned item has a `Query` that `ParseARN`
accepts and a `Scope` equal to `FormatScope(AccountID, Region)` of that parse
result; and the very same link (same query, same scope) is emitted whatever
ambient scope the mapper is called with. -/
theorem search_link_carries_target_scope (d : Deps) (scope : String)
    (output : DescribeConnectionsOutput) (items : List Item) (item : Item)
    (l : LinkedItemQuery)
    (h : connectionOutputMapper d scope output = .ok items) (hi : item ∈ items)
    (hl : l ∈ item.LinkedItemQueries) (hm : l.Query.Method = QueryMethod.SEARCH) :
    (∃ arn, d.ParseARN l.Query.Query = .ok arn ∧
      l.Query.Scope = d.FormatScope arn.AccountID arn.Region) ∧
    ∀ other : String, ∃ items2, connectionOutputMapper d other output = .ok items2 ∧
      ∃ item2, item2 ∈ items2 ∧ l ∈ item2.LinkedItemQueries := by
  obtain ⟨cr, hcr, hs, ⟨attributes, hp⟩, hmem⟩ := link_origin d scope output items item l h hi hl
  have harn : l ∈ arnLinks d "directconnect-aws-logical-device" cr.awsLogicalDeviceId.isSome
        cr.OutpostArn ∨
      l ∈ arnLinks d "directconnect-lag" cr.LagId.isSome cr.PlacementGroupArn ∨
      l ∈ arnLinks d "directconnect-vlan" cr.VLAN.isSome cr.PlacementGroupArn := by
    rcases (mem_expectedLinks d scope cr l).mp hmem with hdev | hrest
    · obtain ⟨_, q, _, rfl⟩ := (mem_deviceLinks scope cr l).mp hdev
      simp [getLink] at hm
    · exact hrest
  constructor
  · rcases harn with h1 | h1 | h1 <;>
      · obtain ⟨_, s, arn, _, hparse, rfl⟩ := (mem_arnLinks d _ _ _ l).mp h1
        exact ⟨arn, hparse, rfl⟩
  · intro other
    obtain ⟨items2, h2⟩ :=
      (mapper_succeeds_iff d other output).mpr ((mapper_succeeds_iff d scope output).mp ⟨items, h⟩)
    obtain ⟨item2, hi2, hb2⟩ :=
      forall₂_of_mem_left ((mapper_ok_iff d other output items2).mp h2) hcr
    obtain ⟨attributes2, _, _, rfl⟩ := (mapConnection_ok_iff d other cr item2).mp hb2
    exact ⟨items2, h2, _, hi2, (mem_expectedLinks d other cr l).mpr (Or.inr harn)⟩

/-- C4, at a concrete input: the logical-device link of `fullConnection`,
mapped in the scope `111111111111.eu-west-2`, carries the scope
`222222222222.us-east-1` of its own identifier. -/
theorem search_link_carries_target_scope_witness :
    (∃ arn, specDeps.ParseARN fullLogicalDeviceLink.Query.Query = .ok arn ∧
      fullLogicalDeviceLink.Query.Scope = specDeps.FormatScope arn.AccountID arn.Region) ∧
    ∀ other : String, ∃ items2,
      connectionOutputMapper specDeps other ⟨[fullConnection]⟩ = .ok items2 ∧
      ∃ item2, item2 ∈ items2 ∧ fullLogicalDeviceLink ∈ item2.LinkedItemQueries :=
  search_link_carries_target_scope specDeps "111111111111.eu-west-2" ⟨[fullConnection]⟩
    [fullItem] fullItem fullLogicalDeviceLink rfl (List.mem_singleton.mpr rfl)
    (List.mem_cons_of_mem _ (List.mem_cons_self _ _)) rfl

/-- C5: every link of every returned item has `BlastPropagation` exactly
`In = true`, `Out = false`, and its type is one of the four relationship
types. -/
theorem blast_propagation_is_in_only (d : Deps) (scope : String)
    (output : DescribeConnectionsOutput) (items : List Item) (item : Item)
    (l : LinkedItemQuery)
    (h : connectionOutputMapper d scope output = .ok items) (hi : item ∈ items)
    (hl : l ∈ item.LinkedItemQueries) :
    l.BlastPropagation = { In := true, Out := false } ∧
    l.Query.Type_ ∈ ["directconnect-aws-Device-V2", "directconnect-aws-logical-device",
      "directconnect-lag", "directconnect-vlan"] := by
  obtain ⟨cr, _, _, _, hmem⟩ := link_origin d scope output items item l h hi hl
  rcases (mem_expectedLinks d scope cr l).mp hmem with h1 | h1 | h1 | h1
  · obtain ⟨_, q, _, rfl⟩ := (mem_deviceLinks scope cr l).mp h1
    simp [getLink]
  · obtain ⟨_, s, arn, _, _, rfl⟩ := (mem_arnLinks d _ _ _ l).mp h1
    simp [searchLink]
  · obtain ⟨_, s, arn, _, _, rfl⟩ := (mem_arnLinks d _ _ _ l).mp h1
    simp [searchLink]
  · obtain ⟨_, s, arn, _, _, rfl⟩ := (mem_arnLinks d _ _ _ l).mp h1
    simp [searchLink]

/-- C5, at a concrete input: the logical-device link of `fullConnection`. -/
theorem blast_propagation_is_in_only_witness :
    fullLogicalDeviceLink.BlastPropagation = { In := true, Out := false } ∧
    fullLogicalDeviceLink.Query.Type_ ∈ ["directconnect-aws-Device-V2",
      "directconnect-aws-logical-device", "directconnect-lag", "directconnect-vlan"] :=
  blast_propagation_is_in_only specDeps "111111111111.eu-west-2" ⟨[fullConnection]⟩
    [fullItem] fullItem fullLogicalDeviceLink rfl (List.mem_singleton.mpr rfl)
    (List.mem_cons_of_mem _ (List.mem_cons_self _ _))

/-- C6 as amended: on a successful call there is one item per record; the
item at the position of a record has `UniqueAttribute` `connectionId` and its
`Attributes` are exactly what `ToAttributesCase(record, "tags")` returned, the
mapper checks nothing in them; under the projection of the specification the
attributes hold a non-empty `connectionId` exactly when the record's
`ConnectionId` is present and not the empty string. -/
theorem attributes_are_the_projection (d : Deps) (scope : String)
    (output : DescribeConnectionsOutput) (items : List Item)
    (h : connectionOutputMapper d scope output = .ok items) :
    items.length = output.Connections.length ∧
    (∀ (i : Nat) (cr : Connection), output.Connections[i]? = some cr →
      ∃ it, items[i]? = some it ∧ it.UniqueAttribute = "connectionId" ∧
        d.ToAttributesCase cr ["tags"] = .ok it.Attributes) ∧
    (∀ (cr : Connection) (attributes : Attributes),
      specToAttributesCase cr ["tags"] = .ok attributes →
      (hasNonEmpty attributes "connectionId" = true ↔
        ∃ s, cr.ConnectionId = some s ∧ s ≠ "")) := by
  have hf := (mapper_ok_iff d scope output items).mp h
  refine ⟨hf.length_eq.symm, ?_, ?_⟩
  · intro i cr hcr
    obtain ⟨it, hit, hb⟩ := forall₂_at hf i hcr
    obtain ⟨attributes, hp, _, rfl⟩ := (mapConnection_ok_iff d scope cr it).mp hb
    exact ⟨_, hit, rfl, hp⟩
  · intro cr attributes hp
    have hproj : specToAttributesCase cr ["tags"] = .ok [
        ("connectionId", strValue cr.ConnectionId),
        ("awsDeviceV2", strValue cr.awsDeviceV2),
        ("connectionFleetId", strValue cr.ConnectionFleetId),
        ("awsLogicalDeviceId", strValue cr.awsLogicalDeviceId),
        ("outpostArn", strValue cr.OutpostArn),
        ("lagId", strValue cr.LagId),
        ("placementGroupArn", strValue cr.PlacementGroupArn),
        ("vLAN", match cr.VLAN with
                 | some n => .int n
                 | none => .null)] := rfl
    rw [hproj] at hp
    simp only [Except.ok.injEq] at hp
    subst hp
    cases hc : cr.ConnectionId with
    | none => simp [hasNonEmpty, strValue]
    | some s => simp [hasNonEmpty, strValue]

/-- C6 as amended, at a concrete input: the item of `fullConnection`. -/
theorem attributes_are_the_projection_witness :
    [fullItem].length = [fullConnection].length ∧
    (∀ (i : Nat) (cr : Connection), [fullConnection][i]? = some cr →
      ∃ it, [fullItem][i]? = some it ∧ it.UniqueAttribute = "connectionId" ∧
        specDeps.ToAttributesCase cr ["tags"] = .ok it.Attributes) ∧
    (∀ (cr : Connection) (attributes : Attributes),
      specToAttributesCase cr ["tags"] = .ok attributes →
      (hasNonEmpty attributes "connectionId" = true ↔
        ∃ s, cr.ConnectionId = some s ∧ s ≠ "")) :=
  attributes_are_the_projection specDeps "111111111111.eu-west-2" ⟨[fullConnection]⟩
    [fullItem] rfl

/-- C6 as stated fails: the mapper returns, for a record without an
identifier and for a record whose identifier is empty, items whose attributes
hold no non-empty `connectionId`. -/
theorem item_without_unique_attribute :
    ∃ first second,
      connectionOutputMapper specDeps "111111111111.eu-west-2"
        ⟨[anonymousConnection, blankConnection]⟩ = .ok [first, second] ∧
      first.UniqueAttribute = "connectionId" ∧
      hasNonEmpty first.Attributes first.UniqueAttribute = false ∧
      second.UniqueAttribute = "connectionId" ∧
      hasNonEmpty second.Attributes second.UniqueAttribute = false :=
  ⟨_, _, rfl, rfl, by decide, rfl, by decide⟩

/-- C7 fails on the code: the projection of `plainConnection` succeeds and the
mapper returns no item for it: it crashes on the dereference of the absent
`ConnectionFleetId`. -/
theorem one_record_no_item :
    (∃ attributes, specDeps.ToAttributesCase plainConnection ["tags"] = .ok attributes) ∧
    connectionOutputMapper specDeps "111111111111.eu-west-2" ⟨[plainConnection]⟩ = .nilDeref :=
  ⟨⟨_, rfl⟩, rfl⟩

/-- C8: on a successful call there is one item per record, and the item at
the position of a record has `Type` `directconnect-connection` (the
`ItemType` of the source built by `NewConnectionSource`), `UniqueAttribute`
`connectionId`, `Scope` equal to the ambient scope and `Tags` equal to
`tagsToMap` of the record's tags. -/
theorem item_header_fields (d : Deps) (scope : String) (output : DescribeConnectionsOutput)
    (items : List Item) (h : connectionOutputMapper d scope output = .ok items) :
    (NewConnectionSource d).ItemType = "directconnect-connection" ∧
    items.length = output.Connections.length ∧
    ∀ (i : Nat) (cr : Connection), output.Connections[i]? = some cr →
      ∃ it, items[i]? = some it ∧
        it.Type_ = (NewConnectionSource d).ItemType ∧
        it.UniqueAttribute = "connectionId" ∧
        it.Scope = scope ∧
        it.Tags = d.tagsToMap cr.Tags := by
  have hf := (mapper_ok_iff d scope output items).mp h
  refine ⟨rfl, hf.length_eq.symm, ?_⟩
  intro i cr hcr
  obtain ⟨it, hit, hb⟩ := forall₂_at hf i hcr
  obtain ⟨attributes, _, _, rfl⟩ := (mapConnection_ok_iff d scope cr it).mp hb
  exact ⟨_, hit, rfl, rfl, rfl, rfl⟩

/-- C8, at a concrete input: the item of `fullConnection`. -/
theorem item_header_fields_witness :
    (NewConnectionSource specDeps).ItemType = "directconnect-connection" ∧
    [fullItem].length = [fullConnection].length ∧
    ∀ (i : Nat) (cr : Connection), [fullConnection][i]? = some cr →
      ∃ it, [fullItem][i]? = some it ∧
        it.Type_ = (NewConnectionSource specDeps).ItemType ∧
        it.UniqueAttribute = "connectionId" ∧
        it.Scope = "111111111111.eu-west-2" ∧
        it.Tags = specDeps.tagsToMap cr.Tags :=
  item_header_fields specDeps "111111111111.eu-west-2" ⟨[fullConnection]⟩ [fullItem] rfl

/-- C9 fails on the code: the projection of the second record fails, and the
mapper returns no error: it crashes on the first record before it projects the
second. -/
theorem projection_failure_not_returned :
    (∃ attributes, strictDeps.ToAttributesCase plainConnection ["tags"] = .ok attributes) ∧
    strictDeps.ToAttributesCase anonymousConnection ["tags"] =
      .error "AttributeProjectionError: no connectionId" ∧
    connectionOutputMapper strictDeps "111111111111.eu-west-2"
      ⟨[plainConnection, anonymousConnection]⟩ = .nilDeref :=
  ⟨⟨_, rfl⟩, rfl, rfl⟩

/-- C10: the mapper on `xs ++ ys` succeeds exactly when it succeeds on `xs`
and on `ys`, and then its result is the concatenation of the two results;
the item of a record depends on that record and the scope only. -/
theorem mapper_append (d : Deps) (scope : String) (xs ys : List Connection) :
    ((∃ items, connectionOutputMapper d scope ⟨xs ++ ys⟩ = .ok items) ↔
      (∃ a, connectionOutputMapper d scope ⟨xs⟩ = .ok a) ∧
      (∃ b, connectionOutputMapper d scope ⟨ys⟩ = .ok b)) ∧
    (∀ a b, connectionOutputMapper d scope ⟨xs⟩ = .ok a →
      connectionOutputMapper d scope ⟨ys⟩ = .ok b →
      connectionOutputMapper d scope ⟨xs ++ ys⟩ = .ok (a ++ b)) ∧
    (∀ (pre post : List Connection) (cr : Connection) (items : List Item),
      connectionOutputMapper d scope ⟨pre ++ cr :: post⟩ = .ok items →
      ∃ it, items[pre.length]? = some it ∧ connectionOutputMapper d scope ⟨[cr]⟩ = .ok [it]) := by
  have key : connectionOutputMapper d scope ⟨xs ++ ys⟩ =
      (connectionOutputMapper d scope ⟨xs⟩).bind fun a =>
        (connectionOutputMapper d scope ⟨ys⟩).bind fun b => .ok (a ++ b) :=
    mapLoop_append d scope xs ys
  refine ⟨?_, ?_, ?_⟩
  · rw [key]
    cases connectionOutputMapper d scope ⟨xs⟩ <;>
      cases connectionOutputMapper d scope ⟨ys⟩ <;> simp [Outcome.bind]
  · intro a b ha hb
    rw [key, ha, hb]
    rfl
  · intro pre post cr items h
    have hf := (mapper_ok_iff d scope _ items).mp h
    have hget : (pre ++ cr :: post)[pre.length]? = some cr := by
      rw [List.getElem?_append_right (le_refl _)]
      simp
    obtain ⟨it, hit, hb⟩ := forall₂_at hf pre.length hget
    refine ⟨it, hit, ?_⟩
    exact (mapper_ok_iff d scope ⟨[cr]⟩ [it]).mpr (List.Forall₂.cons hb List.Forall₂.nil)

/-- C11: in the item of a record every link type occurs at most once, so the
item has at most four links; a link type does not occur when the field tested
for it is absent; and a record with none of the four tested fields present
never makes the mapper crash and, when it projects, yields an item with no
links. -/
theorem links_only_for_present_references (d : Deps) (scope : String) :
    (∀ (output : DescribeConnectionsOutput) (items : List Item),
      connectionOutputMapper d scope output = .ok items →
      ∀ (i : Nat) (cr : Connection), output.Connections[i]? = some cr →
        ∃ it, items[i]? = some it ∧
          (∀ t, (linkTypes it).count t ≤ 1) ∧
          it.LinkedItemQueries.length ≤ 4 ∧
          (cr.awsDeviceV2 = none → "directconnect-aws-Device-V2" ∉ linkTypes it) ∧
          (cr.awsLogicalDeviceId = none →
            "directconnect-aws-logical-device" ∉ linkTypes it) ∧
          (cr.LagId = none → "directconnect-lag" ∉ linkTypes it) ∧
          (cr.VLAN = none → "directconnect-vlan" ∉ linkTypes it)) ∧
    (∀ cr : Connection, cr.awsDeviceV2 = none → cr.awsLogicalDeviceId = none →
      cr.LagId = none → cr.VLAN = none →
      connectionOutputMapper d scope ⟨[cr]⟩ ≠ .nilDeref ∧
      ∀ attributes, d.ToAttributesCase cr ["tags"] = .ok attributes →
        ∃ it, connectionOutputMapper d scope ⟨[cr]⟩ = .ok [it] ∧
          it.LinkedItemQueries = []) := by
  constructor
  · intro output items h i cr hcr
    obtain ⟨it, hit, hb⟩ := forall₂_at ((mapper_ok_iff d scope output items).mp h) i hcr
    obtain ⟨attributes, _, _, rfl⟩ := (mapConnection_ok_iff d scope cr it).mp hb
    have hsub : List.Sublist (linkTypes (itemOf d scope cr attributes)) linkTypeOrder :=
      expectedLinks_types_sublist d scope cr
    have hnodup : (linkTypes (itemOf d scope cr attributes)).Nodup :=
      hsub.nodup (by decide)
    obtain ⟨t1, t2, t3, t4⟩ := tested_of_type_mem d scope cr attributes
    refine ⟨_, hit, List.nodup_iff_count_le_one.mp hnodup, ?_, ?_, ?_, ?_, ?_⟩
    · have hlen := hsub.length_le
      simpa [linkTypes, linkTypeOrder] using hlen
    · intro hnone hmem
      have := t1 hmem
      simp [hnone] at this
    · intro hnone hmem
      have := t2 hmem
      simp [hnone] at this
    · intro hnone hmem
      have := t3 hmem
      simp [hnone] at this
    · intro hnone hmem
      have := t4 hmem
      simp [hnone] at this
  · intro cr h1 h2 h3 h4
    have hs : DerefSafe cr := by
      simp [DerefSafe, h1, h2, h3, h4]
    constructor
    · intro hcrash
      obtain ⟨pre, x, post, hsplit, _, hx⟩ := (mapLoop_nilDeref_iff d scope [cr]).mp hcrash
      have hmem : x ∈ [cr] := by
        have : x ∈ pre ++ x :: post := by simp
        exact hsplit ▸ this
      rw [List.mem_singleton.mp hmem] at hx
      exact ((mapConnection_nilDeref_iff d scope cr).mp hx).2 hs
    · intro attributes hp
      refine ⟨itemOf d scope cr attributes, ?_, ?_⟩
      · exact (mapper_ok_iff d scope ⟨[cr]⟩ _).mpr
          (List.Forall₂.cons ((mapConnection_ok_iff d scope cr _).mpr ⟨attributes, hp, hs, rfl⟩)
            List.Forall₂.nil)
      · simp [itemOf, expectedLinks, deviceLinks, arnLinks, h1, h2, h3, h4]

/-- C11, at concrete inputs: the four links of `fullConnection` have four
different types, and `bareConnection`, which has no cross-reference, is mapped
to an item with no links. -/
theorem links_only_for_present_references_witness :
    (∃ it, [fullItem][0]? = some it ∧ (∀ t, (linkTypes it).count t ≤ 1) ∧
      it.LinkedItemQueries.length ≤ 4) ∧
    ∃ it, connectionOutputMapper specDeps "111111111111.eu-west-2" ⟨[bareConnection]⟩ =
        .ok [it] ∧ it.LinkedItemQueries = [] := by
  have h := links_only_for_present_references specDeps "111111111111.eu-west-2"
  constructor
  · obtain ⟨it, hit, hcount, hlen, _⟩ := h.1 ⟨[fullConnection]⟩ [fullItem] rfl 0 fullConnection rfl
    exact ⟨it, hit, hcount, hlen⟩
  · exact (h.2 bareConnection rfl rfl rfl rfl).2 _ rfl

/-- C12: the Get input mapper of the source returns, for every scope and
query, without error the request whose `ConnectionIds` is the one-element list
of the query, and the List input mapper returns, for every scope, without
error the empty request. -/
theorem input_mappers_get_and_list (d : Deps) :
    (∃ get, (NewConnectionSource d).InputMapperGet = some get ∧
      ∀ scope query : String, get scope query = .ok { ConnectionIds := [query] }) ∧
    (∃ list, (NewConnectionSource d).InputMapperList = some list ∧
      ∀ scope : String, list scope = .ok { ConnectionIds := [] }) :=
  ⟨⟨_, rfl, fun _ _ => rfl⟩, ⟨_, rfl, fun _ => rfl⟩⟩

/-- C13 as amended: the source built by `NewConnectionSource` sets exactly two
request builders, `InputMapperGet` and `InputMapperList`: it has a Get and a
List input mapper and no Search input mapper. How a search is served is left
to `sources.DescribeOnlySource`, of which nothing is stated. -/
theorem source_sets_get_and_list_mappers_only (d : Deps) :
    inputMapperFields NewConnectionSource.literalFields =
      ["InputMapperGet", "InputMapperList"] ∧
    (∃ get, (NewConnectionSource d).InputMapperGet = some get) ∧
    (∃ list, (NewConnectionSource d).InputMapperList = some list) ∧
    (NewConnectionSource d).InputMapperSearch = none :=
  ⟨by decide, ⟨_, rfl⟩, ⟨_, rfl⟩, rfl⟩

/-- C13 as stated fails: the source built by `NewConnectionSource` provides no
Search input mapper; the only request builders its literal sets are
`InputMapperGet` and `InputMapperList`. -/
theorem no_search_input_mapper :
    (NewConnectionSource specDeps).InputMapperSearch.isNone = true ∧
    inputMapperFields NewConnectionSource.literalFields =
      ["InputMapperGet", "InputMapperList"] :=
  ⟨rfl, by decide⟩

/-- C14 fails on the code: a fetch through `DescribeFunc` waits once on the
bucket before its provider call; the fetch of a page through the paginator of
`PaginatorBuilder` makes the provider call with no wait, and the paginator is
the same whatever bucket the source was built with. -/
theorem paginator_fetch_not_rate_limited (limit other : LimitBucket) (client : Client)
    (input : DescribeConnectionsInput) :
    (NewConnectionSource.DescribeFunc limit client input).1 =
      [.limitWait limit, .describeConnections input] ∧
    rateLimited limit (NewConnectionSource.DescribeFunc limit client input).1 = true ∧
    (NewConnectionSource.PaginatorBuilder specNewDescribeConnectionsPaginator limit client
      input).NextPage.1 = [.describeConnections input] ∧
    rateLimited limit (NewConnectionSource.PaginatorBuilder specNewDescribeConnectionsPaginator
      limit client input).NextPage.1 = false ∧
    (∀ newPaginator : Client → DescribeConnectionsInput → Paginator,
      NewConnectionSource.PaginatorBuilder newPaginator limit client input =
        NewConnectionSource.PaginatorBuilder newPaginator other client input) := by
  refine ⟨rfl, ?_, rfl, ?_, fun _ => rfl⟩
  · simp [NewConnectionSource.DescribeFunc, rateLimited]
  · simp [NewConnectionSource.PaginatorBuilder, specNewDescribeConnectionsPaginator, rateLimited]

/-- C15: the types of the links of every returned item, in order, form a
subsequence of the list device, logical device, LAG, VLAN. -/
theorem link_types_in_branch_order (d : Deps) (scope : String)
    (output : DescribeConnectionsOutput) (items : List Item) (item : Item)
    (h : connectionOutputMapper d scope output = .ok items) (hi : item ∈ items) :
    List.Sublist (linkTypes item)
      ["directconnect-aws-Device-V2", "directconnect-aws-logical-device", "directconnect-lag",
        "directconnect-vlan"] := by
  obtain ⟨cr, _, hb⟩ := forall₂_of_mem_right ((mapper_ok_iff d scope output items).mp h) hi
  obtain ⟨attributes, _, _, rfl⟩ := (mapConnection_ok_iff d scope cr item).mp hb
  exact expectedLinks_types_sublist d scope cr

/-- C15, at a concrete input: the item of `fullConnection`. -/
theorem link_types_in_branch_order_witness :
    List.Sublist (linkTypes fullItem)
      ["directconnect-aws-Device-V2", "directconnect-aws-logical-device", "directconnect-lag",
        "directconnect-vlan"] :=
  link_types_in_branch_order specDeps "111111111111.eu-west-2" ⟨[fullConnection]⟩ [fullItem]
    fullItem rfl (List.mem_singleton.mpr rfl)

/-- C16 fails on the code: in each of the four branches the field tested is
not the field dereferenced, and on a record with the tested field present and
the dereferenced field absent the mapper crashes on the nil dereference. -/
theorem dereference_of_absent_field :
    (plainConnection.awsDeviceV2.isSome = true ∧ plainConnection.ConnectionFleetId = none ∧
      connectionOutputMapper specDeps "111111111111.eu-west-2" ⟨[plainConnection]⟩ =
        .nilDeref) ∧
    (logicalDeviceOnlyConnection.awsLogicalDeviceId.isSome = true ∧
      logicalDeviceOnlyConnection.OutpostArn = none ∧
      connectionOutputMapper specDeps "111111111111.eu-west-2"
        ⟨[logicalDeviceOnlyConnection]⟩ = .nilDeref) ∧
    (lagOnlyConnection.LagId.isSome = true ∧ lagOnlyConnection.PlacementGroupArn = none ∧
      connectionOutputMapper specDeps "111111111111.eu-west-2" ⟨[lagOnlyConnection]⟩ =
        .nilDeref) ∧
    (vlanOnlyConnection.VLAN.isSome = true ∧ vlanOnlyConnection.PlacementGroupArn = none ∧
      connectionOutputMapper specDeps "111111111111.eu-west-2" ⟨[vlanOnlyConnection]⟩ =
        .nilDeref) :=
  ⟨⟨rfl, rfl, rfl⟩, ⟨rfl, rfl, rfl⟩, ⟨rfl, rfl, rfl⟩, ⟨rfl, rfl, rfl⟩⟩

/-- C17 fails on the code: for `fullConnection` the LAG link and the VLAN link
are both emitted and carry the same `Query`, the string of
`PlacementGroupArn`, and the same `Scope`. -/
theorem lag_and_vlan_links_share_target :
    ∃ item lag vlan,
      connectionOutputMapper specDeps "111111111111.eu-west-2" ⟨[fullConnection]⟩ =
        .ok [item] ∧
      item.LinkedItemQueries[2]? = some lag ∧ item.LinkedItemQueries[3]? = some vlan ∧
      lag.Query.Type_ = "directconnect-lag" ∧ vlan.Query.Type_ = "directconnect-vlan" ∧
      fullConnection.PlacementGroupArn = some lag.Query.Query ∧
      lag.Query.Query = vlan.Query.Query ∧ lag.Query.Scope = vlan.Query.Scope ∧
      fullConnection.LagId = some "dxlag-ffabc123" ∧ fullConnection.VLAN = some 101 :=
  ⟨_, _, _, rfl, rfl, rfl, rfl, rfl, rfl, rfl, rfl, rfl, rfl⟩

/-! ## Further properties of the mapper -/

/-- On records that all project and on which every dereferenced field is
present whenever its tested field is, the mapper returns one item per record,
in the order of the records: the item at the position of a record is
`itemOf` that record. -/
theorem mapper_returns_on_safe_records (d : Deps) (scope : String)
    (output : DescribeConnectionsOutput)
    (hp : ∀ cr, cr ∈ output.Connections →
      ∃ attributes, d.ToAttributesCase cr ["tags"] = .ok attributes)
    (hs : ∀ cr, cr ∈ output.Connections → DerefSafe cr) :
    ∃ items, connectionOutputMapper d scope output = .ok items ∧
      items.length = output.Connections.length ∧
      ∀ (i : Nat) (cr : Connection), output.Connections[i]? = some cr →
        ∃ attributes, d.ToAttributesCase cr ["tags"] = .ok attributes ∧
          items[i]? = some (itemOf d scope cr attributes) := by
  obtain ⟨items, h⟩ :=
    (mapper_succeeds_iff d scope output).mpr fun cr hcr => ⟨hp cr hcr, hs cr hcr⟩
  have hf := (mapper_ok_iff d scope output items).mp h
  refine ⟨items, h, hf.length_eq.symm, ?_⟩
  intro i cr hcr
  obtain ⟨it, hit, hb⟩ := forall₂_at hf i hcr
  obtain ⟨attributes, hproj, _, rfl⟩ := (mapConnection_ok_iff d scope cr it).mp hb
  exact ⟨attributes, hproj, hit⟩

/-- The record `fullConnection` is mapped to one item. -/
theorem mapper_returns_on_safe_records_witness :
    ∃ items, connectionOutputMapper specDeps "111111111111.eu-west-2" ⟨[fullConnection]⟩ =
        .ok items ∧
      items.length = [fullConnection].length ∧
      ∀ (i : Nat) (cr : Connection), [fullConnection][i]? = some cr →
        ∃ attributes, specDeps.ToAttributesCase cr ["tags"] = .ok attributes ∧
          items[i]? = some (itemOf specDeps "111111111111.eu-west-2" cr attributes) :=
  mapper_returns_on_safe_records specDeps "111111111111.eu-west-2" ⟨[fullConnection]⟩
    (fun cr hcr => by
      rw [List.mem_singleton.mp hcr]
      exact ⟨_, rfl⟩)
    (fun cr hcr => by
      rw [List.mem_singleton.mp hcr]
      decide)

/-- The mapper returns the error `err` exactly when the projection of some
record returns `err` and every record before it projects and has every
dereferenced field present whenever its tested field is. The result of
`ParseARN` plays no part. -/
theorem mapper_error_iff (d : Deps) (scope : String) (output : DescribeConnectionsOutput)
    (err : String) :
    connectionOutputMapper d scope output = .error err ↔
      ∃ pre cr post, output.Connections = pre ++ cr :: post ∧
        (∀ x, x ∈ pre →
          (∃ attributes, d.ToAttributesCase x ["tags"] = .ok attributes) ∧ DerefSafe x) ∧
        d.ToAttributesCase cr ["tags"] = .error err := by
  unfold connectionOutputMapper
  simp only [mapLoop_error_iff, exists_built_iff, mapConnection_error_iff]

/-- The mapper crashes on a nil dereference exactly when some record projects
and has a tested field present with its dereferenced field absent, and every
record before it projects and has none. -/
theorem mapper_nilDeref_iff (d : Deps) (scope : String) (output : DescribeConnectionsOutput) :
    connectionOutputMapper d scope output = .nilDeref ↔
      ∃ pre cr post, output.Connections = pre ++ cr :: post ∧
        (∀ x, x ∈ pre →
          (∃ attributes, d.ToAttributesCase x ["tags"] = .ok attributes) ∧ DerefSafe x) ∧
        (∃ attributes, d.ToAttributesCase cr ["tags"] = .ok attributes) ∧ ¬DerefSafe cr := by
  unfold connectionOutputMapper
  simp only [mapLoop_nilDeref_iff, exists_built_iff, mapConnection_nilDeref_iff]

/-- A malformed identifier removes the links built from it and no other: on
a record that projects and on which no dereference fails, the links of the
item are the device link, then the logical-device link when `OutpostArn`
parses, then the LAG and the VLAN link when `PlacementGroupArn` parses; when
`ParseARN` rejects `OutpostArn` they are the device, LAG and VLAN links, and
when it rejects `PlacementGroupArn` the device and logical-device links. -/
theorem malformed_reference_omits_its_links (d : Deps) (scope : String) (cr : Connection)
    (attributes : Attributes) (hp : d.ToAttributesCase cr ["tags"] = .ok attributes)
    (hs : DerefSafe cr) :
    connectionOutputMapper d scope ⟨[cr]⟩ = .ok [itemOf d scope cr attributes] ∧
    (∀ s err, cr.OutpostArn = some s → d.ParseARN s = .error err →
      (itemOf d scope cr attributes).LinkedItemQueries =
        deviceLinks scope cr ++
          (arnLinks d "directconnect-lag" cr.LagId.isSome cr.PlacementGroupArn ++
            arnLinks d "directconnect-vlan" cr.VLAN.isSome cr.PlacementGroupArn)) ∧
    (∀ s err, cr.PlacementGroupArn = some s → d.ParseARN s = .error err →
      (itemOf d scope cr attributes).LinkedItemQueries =
        deviceLinks scope cr ++
          arnLinks d "directconnect-aws-logical-device" cr.awsLogicalDeviceId.isSome
            cr.OutpostArn) := by
  refine ⟨?_, ?_, ?_⟩
  · exact (mapper_ok_iff d scope ⟨[cr]⟩ _).mpr
      (List.Forall₂.cons ((mapConnection_ok_iff d scope cr _).mpr ⟨attributes, hp, hs, rfl⟩)
        List.Forall₂.nil)
  · intro s err ho hparse
    have h0 : ∀ tested, arnLinks d "directconnect-aws-logical-device" tested cr.OutpostArn = [] := by
      intro tested
      cases tested <;> simp [arnLinks, ho, hparse]
    simp only [itemOf, expectedLinks, h0, List.nil_append]
  · intro s err hg hparse
    have h0 : ∀ type_ tested, arnLinks d type_ tested cr.PlacementGroupArn = [] := by
      intro type_ tested
      cases tested <;> simp [arnLinks, hg, hparse]
    simp only [itemOf, expectedLinks, h0, List.append_nil]

/-- A record with a malformed `OutpostArn` and every other reference well
formed. -/
theorem malformed_reference_omits_its_links_witness :
    connectionOutputMapper specDeps "111111111111.eu-west-2"
        ⟨[{ fullConnection with OutpostArn := some "outpost/op-1" }]⟩ =
      .ok [itemOf specDeps "111111111111.eu-west-2"
        { fullConnection with OutpostArn := some "outpost/op-1" }
        (fullItem.Attributes.set 4 ("outpostArn", .str "outpost/op-1"))] ∧
    (itemOf specDeps "111111111111.eu-west-2"
        { fullConnection with OutpostArn := some "outpost/op-1" }
        (fullItem.Attributes.set 4 ("outpostArn", .str "outpost/op-1"))).LinkedItemQueries.map
      (fun l => l.Query.Type_) =
      ["directconnect-aws-Device-V2", "directconnect-lag", "directconnect-vlan"] :=
  ⟨(malformed_reference_omits_its_links specDeps "111111111111.eu-west-2"
      { fullConnection with OutpostArn := some "outpost/op-1" }
      (fullItem.Attributes.set 4 ("outpostArn", .str "outpost/op-1")) rfl (by decide)).1, rfl⟩

/-- The LAG link and the VLAN link of a returned item always designate the
same target: both have as `Query` the string of the record's
`PlacementGroupArn` and as `Scope` the scope parsed from it. -/
theorem lag_and_vlan_links_same_query (d : Deps) (scope : String)
    (output : DescribeConnectionsOutput) (items : List Item) (item : Item)
    (lag vlan : LinkedItemQuery)
    (h : connectionOutputMapper d scope output = .ok items) (hi : item ∈ items)
    (hl : lag ∈ item.LinkedItemQueries) (hv : vlan ∈ item.LinkedItemQueries)
    (htl : lag.Query.Type_ = "directconnect-lag")
    (htv : vlan.Query.Type_ = "directconnect-vlan") :
    lag.Query.Query = vlan.Query.Query ∧ lag.Query.Scope = vlan.Query.Scope ∧
    ∃ cr, cr ∈ output.Connections ∧ cr.PlacementGroupArn = some lag.Query.Query := by
  obtain ⟨cr, hcr, hb⟩ := forall₂_of_mem_right ((mapper_ok_iff d scope output items).mp h) hi
  obtain ⟨attributes, _, _, rfl⟩ := (mapConnection_ok_iff d scope cr item).mp hb
  have hlag : lag ∈ arnLinks d "directconnect-lag" cr.LagId.isSome cr.PlacementGroupArn := by
    rcases (mem_expectedLinks d scope cr lag).mp hl with h1 | h1 | h1 | h1
    · obtain ⟨_, q, _, rfl⟩ := (mem_deviceLinks scope cr lag).mp h1
      exact absurd (show _ = "directconnect-lag" from htl) (by simp [getLink, searchLink])
    · obtain ⟨_, s, arn, _, _, rfl⟩ := (mem_arnLinks d _ _ _ lag).mp h1
      exact absurd (show _ = "directconnect-lag" from htl) (by simp [getLink, searchLink])
    · exact h1
    · obtain ⟨_, s, arn, _, _, rfl⟩ := (mem_arnLinks d _ _ _ lag).mp h1
      exact absurd (show _ = "directconnect-lag" from htl) (by simp [getLink, searchLink])
  have hvlan : vlan ∈ arnLinks d "directconnect-vlan" cr.VLAN.isSome cr.PlacementGroupArn := by
    rcases (mem_expectedLinks d scope cr vlan).mp hv with h1 | h1 | h1 | h1
    · obtain ⟨_, q, _, rfl⟩ := (mem_deviceLinks scope cr vlan).mp h1
      exact absurd (show _ = "directconnect-vlan" from htv) (by simp [getLink, searchLink])
    · obtain ⟨_, s, arn, _, _, rfl⟩ := (mem_arnLinks d _ _ _ vlan).mp h1
      exact absurd (show _ = "directconnect-vlan" from htv) (by simp [getLink, searchLink])
    · obtain ⟨_, s, arn, _, _, rfl⟩ := (mem_arnLinks d _ _ _ vlan).mp h1
      exact absurd (show _ = "directconnect-vlan" from htv) (by simp [getLink, searchLink])
    · exact h1
  obtain ⟨_, s1, arn1, hp1, hparse1, rfl⟩ := (mem_arnLinks d _ _ _ lag).mp hlag
  obtain ⟨_, s2, arn2, hp2, hparse2, rfl⟩ := (mem_arnLinks d _ _ _ vlan).mp hvlan
  have hs : s1 = s2 := Option.some.inj (hp1.symm.trans hp2)
  subst hs
  have ha : arn1 = arn2 := Except.ok.inj (hparse1.symm.trans hparse2)
  subst ha
  exact ⟨rfl, rfl, cr, hcr, hp1⟩

/-- The LAG link and the VLAN link of `fullConnection`. -/
theorem lag_and_vlan_links_same_query_witness :
    (searchLink specDeps "directconnect-lag"
        "arn:aws:ec2:eu-west-2:333333333333:placement-group/pg-1"
        ⟨"aws", "ec2", "eu-west-2", "333333333333", "placement-group/pg-1"⟩).Query.Query =
      (searchLink specDeps "directconnect-vlan"
        "arn:aws:ec2:eu-west-2:333333333333:placement-group/pg-1"
        ⟨"aws", "ec2", "eu-west-2", "333333333333", "placement-group/pg-1"⟩).Query.Query ∧
    (searchLink specDeps "directconnect-lag"
        "arn:aws:ec2:eu-west-2:333333333333:placement-group/pg-1"
        ⟨"aws", "ec2", "eu-west-2", "333333333333", "placement-group/pg-1"⟩).Query.Scope =
      (searchLink specDeps "directconnect-vlan"
        "arn:aws:ec2:eu-west-2:333333333333:placement-group/pg-1"
        ⟨"aws", "ec2", "eu-west-2", "333333333333", "placement-group/pg-1"⟩).Query.Scope ∧
    ∃ cr, cr ∈ [fullConnection] ∧
      cr.PlacementGroupArn = some (searchLink specDeps "directconnect-lag"
        "arn:aws:ec2:eu-west-2:333333333333:placement-group/pg-1"
        ⟨"aws", "ec2", "eu-west-2", "333333333333", "placement-group/pg-1"⟩).Query.Query :=
  lag_and_vlan_links_same_query specDeps "111111111111.eu-west-2" ⟨[fullConnection]⟩
    [fullItem] fullItem _ _ rfl (List.mem_singleton.mpr rfl)
    (List.mem_cons_of_mem _ (List.mem_cons_of_mem _ (List.mem_cons_self _ _)))
    (List.mem_cons_of_mem _ (List.mem_cons_of_mem _ (List.mem_cons_of_mem _
      (List.mem_singleton.mpr rfl))))
    rfl rfl

end DirectConnect
